import Mathlib

/-!
Shallow embedding of the share-link subsystem of the checmatev2 repository
(`SharingService` in the sharing service source file).

The JavaScript service keeps its token collection as a plain object keyed by
share id; we embed it as an association list with first-match lookup and
in-place replacement, which matches object-key semantics (each key occurs at
most once in a real run, and assignment replaces the value at an existing
key).  Timestamps (`new Date().toISOString()`, `expiresAt`) are embedded as
natural numbers; the JS comparison `new Date() > new Date(expiresAt)` becomes
strict `>` on naturals.  Randomness (`generateShareId`) is embedded by passing
the generated id as an explicit argument, since `generateShareLink` calls the
generator exactly once and never retries.  `null`/`undefined` fields become
`Option`.
-/

set_option autoImplicit false

namespace Checkmate

/-- The four permission flags of a share token
(`shareData.permissions` in `generateShareLink`). -/
structure Permissions where
  canViewEvents : Bool
  canViewAvailability : Bool
  canViewStatus : Bool
  canViewDetails : Bool
deriving Repr, DecidableEq

/-- A partial permission record as passed by callers to
`generateShareLink` / `updateShareLinkPermissions`: each field may be absent
(`none`, i.e. not present on the JS object).  `generateShareLink` also reads
`permissions.expiresAt` from the same argument object. -/
structure ShareRequest where
  canViewEvents : Option Bool := none
  canViewAvailability : Option Bool := none
  canViewStatus : Option Bool := none
  canViewDetails : Option Bool := none
  expiresAt : Option Nat := none
deriving Repr, DecidableEq

/-- A share token (`shareData` in `generateShareLink`).  Field names follow
the source (`userId` is the owner id, `lastAccessed` the last-access
timestamp). -/
structure ShareToken where
  id : String
  userId : String
  link : String
  permissions : Permissions
  createdAt : Nat
  expiresAt : Option Nat
  isActive : Bool
  accessCount : Nat
  lastAccessed : Option Nat
deriving Repr, DecidableEq

/-- The registry `this.shareLinks`: a JS object keyed by share id. -/
def Registry : Type := List (String × ShareToken)

instance : DecidableEq Registry := by
  unfold Registry
  infer_instance

/-- Property lookup `this.shareLinks[shareId]` (first match). -/
def lookupLink (r : Registry) (shareId : String) : Option ShareToken :=
  match r with
  | [] => none
  | (k, v) :: rest => if k = shareId then some v else lookupLink rest shareId

/-- Property assignment `this.shareLinks[shareId] = tok`: replace the value at
an existing key in place, otherwise append a new entry. -/
def setLink (r : Registry) (shareId : String) (tok : ShareToken) : Registry :=
  match r with
  | [] => [(shareId, tok)]
  | (k, v) :: rest =>
      if k = shareId then (shareId, tok) :: rest
      else (k, v) :: setLink rest shareId tok

/-- Embeds `generateShareLink(userId, permissions)`.  `freshId` is the value returned
by the single call to `this.generateShareId()`; `origin` is
`window.location.origin`; `now` is `new Date()`.  Defaults follow the source:
`canViewEvents/Availability/Status` are `permissions.f !== false`,
`canViewDetails` is `permissions.canViewDetails || false`, `expiresAt` is
`permissions.expiresAt || null`.  Returns the created token and the updated
registry. -/
def generateShareLink (r : Registry) (freshId origin userId : String)
    (req : ShareRequest) (now : Nat) : ShareToken × Registry :=
  let shareId := freshId
  let shareLink := origin ++ "?shared=" ++ shareId
  let tok : ShareToken :=
    { id := shareId
      userId := userId
      link := shareLink
      permissions :=
        { canViewEvents := req.canViewEvents != some false
          canViewAvailability := req.canViewAvailability != some false
          canViewStatus := req.canViewStatus != some false
          canViewDetails := (req.canViewDetails).getD false }
      createdAt := now
      expiresAt := req.expiresAt
      isActive := true
      accessCount := 0
      lastAccessed := none }
  (tok, setLink r shareId tok)

/-- Embeds `getShareLink(shareId)`: raw lookup, no side effect. -/
def getShareLink (r : Registry) (shareId : String) : Option ShareToken :=
  lookupLink r shareId

/-- Embeds `getUserShareLinks(userId)`: all tokens whose `userId` matches. -/
def getUserShareLinks (r : Registry) (userId : String) : List ShareToken :=
  (r.map Prod.snd).filter (fun link => link.userId = userId)

/-- Embeds `revokeShareLink(shareId)`: if the token exists set `isActive = false` and
return `true`, else return `false`. -/
def revokeShareLink (r : Registry) (shareId : String) : Bool × Registry :=
  match lookupLink r shareId with
  | some tok => (true, setLink r shareId { tok with isActive := false })
  | none => (false, r)

/-- The spread merge
`{ ...this.shareLinks[shareId].permissions, ...permissions }` restricted to
the four permission fields: a field given in the patch overrides, an absent
field keeps the old value. -/
def mergePermissions (old : Permissions) (patch : ShareRequest) : Permissions :=
  { canViewEvents := (patch.canViewEvents).getD old.canViewEvents
    canViewAvailability := (patch.canViewAvailability).getD old.canViewAvailability
    canViewStatus := (patch.canViewStatus).getD old.canViewStatus
    canViewDetails := (patch.canViewDetails).getD old.canViewDetails }

/-- Embeds `updateShareLinkPermissions(shareId, permissions)`: merge into the
existing permission record if the token exists and return `true`, else return
`false`. -/
def updateShareLinkPermissions (r : Registry) (shareId : String)
    (patch : ShareRequest) : Bool × Registry :=
  match lookupLink r shareId with
  | some tok =>
      (true, setLink r shareId { tok with permissions := mergePermissions tok.permissions patch })
  | none => (false, r)

/-- Embeds `accessSharedSchedule(shareId)`: if the token exists and `isActive`,
increment `accessCount`, set `lastAccessed` to now and return the updated
token; otherwise return `null`.  Note the source checks only existence and
`isActive` here — `expiresAt` is not consulted. -/
def accessSharedSchedule (r : Registry) (shareId : String) (now : Nat) :
    Option ShareToken × Registry :=
  match lookupLink r shareId with
  | some shareLink =>
      if shareLink.isActive then
        let updated := { shareLink with
          accessCount := shareLink.accessCount + 1
          lastAccessed := some now }
        (some updated, setLink r shareId updated)
      else (none, r)
  | none => (none, r)

/-- A user record as read by `getUserData` (the fields `getSharedScheduleData`
uses).  `events`, `availability` and `currentStatus` may be absent on the JS
object.  Events and availability entries are opaque to the sharing service, so
we embed them as strings / keyed pairs. -/
structure UserData where
  fullName : String
  email : String
  events : Option (List String)
  availability : Option (List (String × String))
  currentStatus : Option String
deriving Repr, DecidableEq

/-- The user directory (`checkmate_users` in local storage), keyed by user
id. -/
def UserDirectory : Type := List (String × UserData)

instance : DecidableEq UserDirectory := by
  unfold UserDirectory
  infer_instance

instance : Repr UserDirectory := by
  unfold UserDirectory
  infer_instance

/-- Embeds `getUserData(userId)`: `users[userId] || null`. -/
def getUserData (users : UserDirectory) (userId : String) : Option UserData :=
  match users with
  | [] => none
  | (k, v) :: rest => if k = userId then some v else getUserData rest userId

/-- The `user` block of the shared view. -/
structure SharedUser where
  name : String
  email : Option String
deriving Repr, DecidableEq

/-- The `shareInfo` metadata block of the shared view. -/
structure ShareInfo where
  createdAt : Nat
  accessCount : Nat
  permissions : Permissions
deriving Repr, DecidableEq

/-- The permission-filtered projection returned by
`getSharedScheduleData` (`sharedData` in the source). -/
structure SharedData where
  user : SharedUser
  events : List String
  availability : List (String × String)
  currentStatus : Option String
  shareInfo : ShareInfo
deriving Repr, DecidableEq

/-- Embeds `getSharedScheduleData(shareId)`: call `accessSharedSchedule` first (so
the registry is updated even when a later check fails), then return `null` if
the token was not returned, or is expired (`expiresAt && now > expiresAt`), or
the owner data is missing; otherwise build the filtered projection. -/
def getSharedScheduleData (r : Registry) (users : UserDirectory)
    (shareId : String) (now : Nat) : Option SharedData × Registry :=
  match accessSharedSchedule r shareId now with
  | (none, r1) => (none, r1)
  | (some shareLink, r1) =>
      if (shareLink.expiresAt).elim false (fun e => now > e) then (none, r1)
      else
        match getUserData users shareLink.userId with
        | none => (none, r1)
        | some userData =>
            let sharedData : SharedData :=
              { user :=
                  { name := userData.fullName
                    email := if shareLink.permissions.canViewDetails
                             then some userData.email else none }
                events := if shareLink.permissions.canViewEvents
                          then (userData.events).getD [] else []
                availability := if shareLink.permissions.canViewAvailability
                                then (userData.availability).getD [] else []
                currentStatus := if shareLink.permissions.canViewStatus
                                 then userData.currentStatus else none
                shareInfo :=
                  { createdAt := shareLink.createdAt
                    accessCount := shareLink.accessCount
                    permissions := shareLink.permissions } }
            (some sharedData, r1)

/-! ### Operation traces

To state reachability invariants (unique ids, terminal revocation) we wrap
the service calls in an operation type and a step function over the
registry.  `issue` carries the id produced by `generateShareId` explicitly,
since that call is the only source of randomness. -/

/-- One call to the sharing service, with all inputs made explicit. -/
inductive Op where
  | issue (freshId origin userId : String) (req : ShareRequest) (now : Nat)
  | getLink (shareId : String)
  | listByOwner (userId : String)
  | revoke (shareId : String)
  | updatePerms (shareId : String) (patch : ShareRequest)
  | access (shareId : String) (now : Nat)
  | getData (users : UserDirectory) (shareId : String) (now : Nat)
deriving Repr, DecidableEq

/-- The registry after one service call (read-only calls leave it as is). -/
def step (r : Registry) (op : Op) : Registry :=
  match op with
  | Op.issue freshId origin userId req now =>
      (generateShareLink r freshId origin userId req now).2
  | Op.getLink _ => r
  | Op.listByOwner _ => r
  | Op.revoke shareId => (revokeShareLink r shareId).2
  | Op.updatePerms shareId patch => (updateShareLinkPermissions r shareId patch).2
  | Op.access shareId now => (accessSharedSchedule r shareId now).2
  | Op.getData users shareId now => (getSharedScheduleData r users shareId now).2

/-- The registry after a sequence of service calls. -/
def run (r : Registry) (ops : List Op) : Registry :=
  ops.foldl step r

/-- Every `issue` in the trace uses an id that is not already a key of the
registry at the moment it runs (i.e. the random generator never collides). -/
def freshTrace (r : Registry) (ops : List Op) : Bool :=
  match ops with
  | [] => true
  | op :: rest =>
      (match op with
       | Op.issue freshId _ _ _ _ => (lookupLink r freshId).isNone
       | _ => true) && freshTrace (step r op) rest

/-! ### Concrete fixtures used by witnesses and counterexamples -/

/-- An active, non-expiring token owned by user alice. -/
def demoToken : ShareToken :=
  { id := "tok1", userId := "alice", link := "o?shared=tok1"
    permissions :=
      { canViewEvents := true, canViewAvailability := true
        canViewStatus := true, canViewDetails := false }
    createdAt := 1, expiresAt := none, isActive := true
    accessCount := 0, lastAccessed := none }

/-- A still-active token whose expiry timestamp (5) is already in the past
at time 10. -/
def demoExpired : ShareToken :=
  { demoToken with id := "exp1", expiresAt := some 5 }

/-- A revoked token. -/
def demoRevoked : ShareToken :=
  { demoToken with id := "rev1", isActive := false }

/-- Owner data for alice: three events, one availability entry, a status. -/
def demoUser : UserData :=
  { fullName := "Alice A", email := "alice@example.com"
    events := some ["e1", "e2", "e3"]
    availability := some [("mon", "9-5")]
    currentStatus := some "Available" }

/-- A one-user directory. -/
def demoUsers : UserDirectory := [("alice", demoUser)]

/-- A registry holding the three demo tokens. -/
def demoRegistry : Registry :=
  [("tok1", demoToken), ("exp1", demoExpired), ("rev1", demoRevoked)]

/-- A partial permission update granting detail access only. -/
def patchDetails : ShareRequest := { canViewDetails := some true }

/-- The demo token after one successful access at time 7. -/
def demoAccessed : ShareToken :=
  { demoToken with accessCount := 1, lastAccessed := some 7 }

/-- The projection obtained for tok1 at time 2: name visible, email hidden,
all three events, availability and status present. -/
def demoView : SharedData :=
  { user := { name := "Alice A", email := none }
    events := ["e1", "e2", "e3"]
    availability := [("mon", "9-5")]
    currentStatus := some "Available"
    shareInfo :=
      { createdAt := 1, accessCount := 1
        permissions := demoToken.permissions } }

/-- A collision-free trace exercising every mutating operation. -/
def demoOps : List Op :=
  [Op.issue "new1" "o" "bob" {} 20, Op.revoke "rev1",
   Op.updatePerms "rev1" patchDetails, Op.access "rev1" 40,
   Op.access "tok1" 41, Op.getData demoUsers "tok1" 42]

/-! ### Registry lemmas -/

theorem lookupLink_setLink_self (r : Registry) (k : String) (v : ShareToken) :
    lookupLink (setLink r k v) k = some v := by
  induction r with
  | nil => simp [setLink, lookupLink]
  | cons hd tl ih =>
      obtain ⟨k1, v1⟩ := hd
      by_cases h : k1 = k
      · subst h; simp [setLink, lookupLink]
      · simp [setLink, lookupLink, h, ih]

theorem lookupLink_setLink_ne (r : Registry) (k : String) (v : ShareToken)
    (k2 : String) (h : k2 ≠ k) :
    lookupLink (setLink r k v) k2 = lookupLink r k2 := by
  induction r with
  | nil => simp [setLink, lookupLink, Ne.symm h]
  | cons hd tl ih =>
      obtain ⟨k1, v1⟩ := hd
      by_cases h1 : k1 = k
      · subst h1
        simp [setLink, lookupLink, Ne.symm h]
      · by_cases h2 : k1 = k2
        · subst h2
          simp [setLink, lookupLink, h1]
        · simp [setLink, lookupLink, h1, h2, ih]

theorem setLink_setLink_self (r : Registry) (k : String) (v v2 : ShareToken) :
    setLink (setLink r k v) k v2 = setLink r k v2 := by
  induction r with
  | nil => simp [setLink]
  | cons hd tl ih =>
      obtain ⟨k1, v1⟩ := hd
      by_cases h : k1 = k
      · subst h; simp [setLink]
      · simp [setLink, h, ih]

theorem mem_keys_setLink (r : Registry) (k : String) (v : ShareToken)
    (a : String) :
    a ∈ (setLink r k v).map Prod.fst ↔ a = k ∨ a ∈ r.map Prod.fst := by
  induction r with
  | nil => simp [setLink]
  | cons hd tl ih =>
      obtain ⟨k1, v1⟩ := hd
      by_cases h : k1 = k
      · subst h; simp [setLink]
      · simp [setLink, h, ih]; tauto

theorem nodup_keys_setLink (r : Registry) (k : String) (v : ShareToken)
    (h : (r.map Prod.fst).Nodup) : ((setLink r k v).map Prod.fst).Nodup := by
  induction r with
  | nil => simp [setLink]
  | cons hd tl ih =>
      obtain ⟨k1, v1⟩ := hd
      simp only [List.map_cons, List.nodup_cons] at h
      by_cases hk : k1 = k
      · subst hk
        have hset : setLink ((k1, v1) :: tl) k1 v = (k1, v) :: tl := by
          simp [setLink]
        rw [hset]
        simpa using h
      · have hset : setLink ((k1, v1) :: tl) k v = (k1, v1) :: setLink tl k v := by
          simp [setLink, hk]
        rw [hset]
        simp only [List.map_cons, List.nodup_cons]
        refine ⟨?_, ih h.2⟩
        rw [mem_keys_setLink]
        push_neg
        exact ⟨hk, h.1⟩

/-! ### Claim theorems -/

/-- C3: `generateShareLink` returns a token with `isActive = true`,
`accessCount = 0` and no `lastAccessed`; its three view permissions are true
unless the request explicitly set them to `false`, `canViewDetails` is false
unless the request explicitly set it to `true`; and the token is persisted in
the registry under its id. -/
theorem generateShareLink_issues_active_default_token
    (r : Registry) (freshId origin userId : String) (req : ShareRequest)
    (now : Nat) :
    (generateShareLink r freshId origin userId req now).1.isActive = true ∧
    (generateShareLink r freshId origin userId req now).1.accessCount = 0 ∧
    (generateShareLink r freshId origin userId req now).1.lastAccessed = none ∧
    ((generateShareLink r freshId origin userId req now).1.permissions.canViewEvents = true ↔
      req.canViewEvents ≠ some false) ∧
    ((generateShareLink r freshId origin userId req now).1.permissions.canViewAvailability = true ↔
      req.canViewAvailability ≠ some false) ∧
    ((generateShareLink r freshId origin userId req now).1.permissions.canViewStatus = true ↔
      req.canViewStatus ≠ some false) ∧
    ((generateShareLink r freshId origin userId req now).1.permissions.canViewDetails = true ↔
      req.canViewDetails = some true) ∧
    lookupLink (generateShareLink r freshId origin userId req now).2
        (generateShareLink r freshId origin userId req now).1.id =
      some (generateShareLink r freshId origin userId req now).1 := by
  refine ⟨rfl, rfl, rfl, ?_, ?_, ?_, ?_, ?_⟩
  · simp [generateShareLink, bne_iff_ne]
  · simp [generateShareLink, bne_iff_ne]
  · simp [generateShareLink, bne_iff_ne]
  · show (req.canViewDetails).getD false = true ↔ req.canViewDetails = some true
    cases h : req.canViewDetails with
    | none => simp
    | some b => cases b <;> simp
  · show lookupLink (setLink r freshId _) freshId = some _
    exact lookupLink_setLink_self r freshId _

/-- C4: `revokeShareLink` on an existing token returns `true` and sets only
`isActive` to `false`; a second call returns `true` again and leaves the
registry unchanged; on a missing id it returns `false` and changes
nothing. -/
theorem revokeShareLink_idempotent (r : Registry) (shareId : String) :
    (∀ tok, lookupLink r shareId = some tok →
      revokeShareLink r shareId =
        (true, setLink r shareId { tok with isActive := false }) ∧
      lookupLink (revokeShareLink r shareId).2 shareId =
        some { tok with isActive := false } ∧
      revokeShareLink (revokeShareLink r shareId).2 shareId =
        (true, (revokeShareLink r shareId).2)) ∧
    (lookupLink r shareId = none → revokeShareLink r shareId = (false, r)) := by
  constructor
  · intro tok h
    have h1 : revokeShareLink r shareId =
        (true, setLink r shareId { tok with isActive := false }) := by
      simp [revokeShareLink, h]
    refine ⟨h1, ?_, ?_⟩
    · rw [h1]
      exact lookupLink_setLink_self r shareId _
    · rw [h1]
      simp only [revokeShareLink, lookupLink_setLink_self]
      rw [setLink_setLink_self]
  · intro h
    simp [revokeShareLink, h]

/-- Witness for C4 at the demo registry: the active token tok1 is present,
the first revocation deactivates it and the second is a no-op. -/
theorem revokeShareLink_idempotent_witness :
    lookupLink demoRegistry "tok1" = some demoToken ∧
    revokeShareLink demoRegistry "tok1" =
      (true, setLink demoRegistry "tok1" { demoToken with isActive := false }) ∧
    revokeShareLink (revokeShareLink demoRegistry "tok1").2 "tok1" =
      (true, (revokeShareLink demoRegistry "tok1").2) := by
  have h := (revokeShareLink_idempotent demoRegistry "tok1").1 demoToken (by decide)
  exact ⟨by decide, h.1, h.2.2⟩

/-- C5: on an existing token, `updateShareLinkPermissions` returns `true`,
replaces only the permission record (merging given fields, keeping absent
ones), leaves every other field of the token and every other registry entry
unchanged; on a missing id it returns `false` and the registry is completely
unchanged. -/
theorem updateShareLinkPermissions_frame (r : Registry) (shareId : String)
    (patch : ShareRequest) :
    (∀ tok, lookupLink r shareId = some tok →
      updateShareLinkPermissions r shareId patch =
        (true, setLink r shareId
          { tok with permissions := mergePermissions tok.permissions patch }) ∧
      lookupLink (updateShareLinkPermissions r shareId patch).2 shareId =
        some { tok with permissions := mergePermissions tok.permissions patch } ∧
      (patch.canViewEvents = none →
        (mergePermissions tok.permissions patch).canViewEvents =
          tok.permissions.canViewEvents) ∧
      (∀ b, patch.canViewEvents = some b →
        (mergePermissions tok.permissions patch).canViewEvents = b) ∧
      (patch.canViewAvailability = none →
        (mergePermissions tok.permissions patch).canViewAvailability =
          tok.permissions.canViewAvailability) ∧
      (∀ b, patch.canViewAvailability = some b →
        (mergePermissions tok.permissions patch).canViewAvailability = b) ∧
      (patch.canViewStatus = none →
        (mergePermissions tok.permissions patch).canViewStatus =
          tok.permissions.canViewStatus) ∧
      (∀ b, patch.canViewStatus = some b →
        (mergePermissions tok.permissions patch).canViewStatus = b) ∧
      (patch.canViewDetails = none →
        (mergePermissions tok.permissions patch).canViewDetails =
          tok.permissions.canViewDetails) ∧
      (∀ b, patch.canViewDetails = some b →
        (mergePermissions tok.permissions patch).canViewDetails = b) ∧
      (∀ k, k ≠ shareId →
        lookupLink (updateShareLinkPermissions r shareId patch).2 k =
          lookupLink r k)) ∧
    (lookupLink r shareId = none →
      updateShareLinkPermissions r shareId patch = (false, r)) := by
  constructor
  · intro tok h
    have h1 : updateShareLinkPermissions r shareId patch =
        (true, setLink r shareId
          { tok with permissions := mergePermissions tok.permissions patch }) := by
      simp [updateShareLinkPermissions, h]
    refine ⟨h1, ?_, ?_, ?_, ?_, ?_, ?_, ?_, ?_, ?_, ?_⟩
    · rw [h1]
      exact lookupLink_setLink_self r shareId _
    · intro hp; simp [mergePermissions, hp]
    · intro b hp; simp [mergePermissions, hp]
    · intro hp; simp [mergePermissions, hp]
    · intro b hp; simp [mergePermissions, hp]
    · intro hp; simp [mergePermissions, hp]
    · intro b hp; simp [mergePermissions, hp]
    · intro hp; simp [mergePermissions, hp]
    · intro b hp; simp [mergePermissions, hp]
    · intro k hk
      rw [h1]
      exact lookupLink_setLink_ne r shareId _ k hk
  · intro h
    simp [updateShareLinkPermissions, h]

/-- Witness for C5: granting detail access on tok1 succeeds and updates the
lookup, while the same patch on an unknown id reports not-found and leaves
the demo registry untouched. -/
theorem updateShareLinkPermissions_frame_witness :
    lookupLink demoRegistry "tok1" = some demoToken ∧
    updateShareLinkPermissions demoRegistry "tok1" patchDetails =
      (true, setLink demoRegistry "tok1"
        { demoToken with
            permissions := mergePermissions demoToken.permissions patchDetails }) ∧
    lookupLink demoRegistry "zzz" = none ∧
    updateShareLinkPermissions demoRegistry "zzz" patchDetails =
      (false, demoRegistry) :=
  ⟨by decide,
   ((updateShareLinkPermissions_frame demoRegistry "tok1" patchDetails).1
      demoToken (by decide)).1,
   by decide,
   (updateShareLinkPermissions_frame demoRegistry "zzz" patchDetails).2
      (by decide)⟩

/-- C10: a successful `accessSharedSchedule` touches only the target token
`accessCount` (by exactly one) and `lastAccessed`: the returned token agrees
with the stored one on every other field, the new registry stores exactly
that token under the id, and every other id resolves as before. -/
theorem accessSharedSchedule_frame (r : Registry) (shareId : String)
    (now : Nat) (tok2 : ShareToken) (r2 : Registry)
    (h : accessSharedSchedule r shareId now = (some tok2, r2)) :
    ∃ tok, lookupLink r shareId = some tok ∧ tok.isActive = true ∧
      tok2 = { tok with accessCount := tok.accessCount + 1,
                        lastAccessed := some now } ∧
      r2 = setLink r shareId tok2 ∧
      lookupLink r2 shareId = some tok2 ∧
      (∀ k, k ≠ shareId → lookupLink r2 k = lookupLink r k) := by
  unfold accessSharedSchedule at h
  cases hl : lookupLink r shareId with
  | none => rw [hl] at h; simp at h
  | some tok =>
      rw [hl] at h
      simp only [] at h
      by_cases ha : tok.isActive
      · rw [if_pos ha] at h
        simp only [Prod.mk.injEq, Option.some.injEq] at h
        obtain ⟨h1, h2⟩ := h
        refine ⟨tok, rfl, ha, h1.symm, ?_, ?_, ?_⟩
        · rw [← h2, h1]
        · rw [← h2, ← h1]
          exact lookupLink_setLink_self r shareId _
        · intro k hk
          rw [← h2]
          exact lookupLink_setLink_ne r shareId _ k hk
      · rw [if_neg ha] at h
        simp at h

/-- Witness for C10: accessing tok1 at time 7 returns it with count 1 and
leaves the expired and revoked fixtures untouched. -/
theorem accessSharedSchedule_frame_witness :
    accessSharedSchedule demoRegistry "tok1" 7 =
      (some demoAccessed, setLink demoRegistry "tok1" demoAccessed) ∧
    (∃ tok, lookupLink demoRegistry "tok1" = some tok ∧ tok.isActive = true ∧
      demoAccessed = { tok with accessCount := tok.accessCount + 1,
                                lastAccessed := some 7 } ∧
      setLink demoRegistry "tok1" demoAccessed =
        setLink demoRegistry "tok1" demoAccessed ∧
      lookupLink (setLink demoRegistry "tok1" demoAccessed) "tok1" =
        some demoAccessed ∧
      (∀ k, k ≠ "tok1" →
        lookupLink (setLink demoRegistry "tok1" demoAccessed) k =
          lookupLink demoRegistry k)) :=
  ⟨by decide,
   accessSharedSchedule_frame demoRegistry "tok1" 7 demoAccessed
     (setLink demoRegistry "tok1" demoAccessed) (by decide)⟩

/-- Inversion for a data-returning projection: `getSharedScheduleData`
returns a view exactly when the token is present, active, not expired, and
the owner data exists; the view is then the permission filter of that data
and the registry holds the bumped token. -/
theorem getSharedScheduleData_some_inv (r : Registry) (users : UserDirectory)
    (shareId : String) (now : Nat) (view : SharedData) (r2 : Registry)
    (h : getSharedScheduleData r users shareId now = (some view, r2)) :
    ∃ tok u, lookupLink r shareId = some tok ∧ tok.isActive = true ∧
      (tok.expiresAt).elim false (fun e => now > e) = false ∧
      getUserData users tok.userId = some u ∧
      r2 = setLink r shareId
        { tok with accessCount := tok.accessCount + 1,
                   lastAccessed := some now } ∧
      view = { user := { name := u.fullName
                         email := if tok.permissions.canViewDetails
                                  then some u.email else none }
               events := if tok.permissions.canViewEvents
                         then (u.events).getD [] else []
               availability := if tok.permissions.canViewAvailability
                               then (u.availability).getD [] else []
               currentStatus := if tok.permissions.canViewStatus
                                then u.currentStatus else none
               shareInfo := { createdAt := tok.createdAt
                              accessCount := tok.accessCount + 1
                              permissions := tok.permissions } } := by
  unfold getSharedScheduleData accessSharedSchedule at h
  cases hl : lookupLink r shareId with
  | none => rw [hl] at h; simp at h
  | some tok =>
      rw [hl] at h
      simp only [] at h
      by_cases ha : tok.isActive
      · rw [if_pos ha] at h
        simp only [] at h
        cases he : (tok.expiresAt).elim false (fun e => now > e) with
        | true => simp only [he, if_true] at h; simp at h
        | false =>
            simp only [he, Bool.false_eq_true, if_false] at h
            cases hu : getUserData users tok.userId with
            | none => simp only [hu] at h; simp at h
            | some u =>
                simp only [hu] at h
                simp only [Prod.mk.injEq, Option.some.injEq] at h
                obtain ⟨h1, h2⟩ := h
                exact ⟨tok, u, rfl, ha, he, hu, h2.symm, h1.symm⟩
      · rw [if_neg ha] at h
        simp at h

/-- C6: whenever the token field `canViewDetails` is `false`, any view returned
by `getSharedScheduleData` carries no owner email, while the owner display
name is always present in the view, whatever the other permissions are. -/
theorem getSharedScheduleData_details_privacy (r : Registry)
    (users : UserDirectory) (shareId : String) (now : Nat)
    (tok : ShareToken) (view : SharedData) (r2 : Registry)
    (hl : lookupLink r shareId = some tok)
    (h : getSharedScheduleData r users shareId now = (some view, r2)) :
    (∃ u, getUserData users tok.userId = some u ∧
      view.user.name = u.fullName) ∧
    (tok.permissions.canViewDetails = false → view.user.email = none) := by
  obtain ⟨tok2, u, hl2, ha, he, hu, hr, hview⟩ :=
    getSharedScheduleData_some_inv r users shareId now view r2 h
  rw [hl] at hl2
  obtain rfl : tok2 = tok := (Option.some.injEq _ _).mp hl2.symm
  subst hview
  exact ⟨⟨u, hu, rfl⟩, fun hd => by simp [hd]⟩

/-- Witness for C6: tok1 has `canViewDetails = false`; its projection at
time 2 shows the name Alice A and no email. -/
theorem getSharedScheduleData_details_privacy_witness :
    demoToken.permissions.canViewDetails = false ∧
    (∃ u, getUserData demoUsers demoToken.userId = some u ∧
      demoView.user.name = u.fullName) ∧
    demoView.user.email = none := by
  have h := getSharedScheduleData_details_privacy demoRegistry demoUsers
    "tok1" 2 demoToken demoView
    (setLink demoRegistry "tok1"
      { demoToken with accessCount := 1, lastAccessed := some 2 })
    (by decide) (by decide)
  exact ⟨by decide, h.1, h.2 (by decide)⟩

/-- C7: event filtering is all-or-nothing: a view returned under
`canViewEvents = true` carries exactly the full owner event list, and a view
returned under `canViewEvents = false` carries no events at all. -/
theorem getSharedScheduleData_events_all_or_nothing (r : Registry)
    (users : UserDirectory) (shareId : String) (now : Nat)
    (tok : ShareToken) (u : UserData) (view : SharedData) (r2 : Registry)
    (hl : lookupLink r shareId = some tok)
    (hu : getUserData users tok.userId = some u)
    (h : getSharedScheduleData r users shareId now = (some view, r2)) :
    (∀ evs, tok.permissions.canViewEvents = true → u.events = some evs →
      view.events = evs) ∧
    (tok.permissions.canViewEvents = false → view.events = []) := by
  obtain ⟨tok2, u2, hl2, ha, he, hu2, hr, hview⟩ :=
    getSharedScheduleData_some_inv r users shareId now view r2 h
  rw [hl] at hl2
  obtain rfl : tok2 = tok := (Option.some.injEq _ _).mp hl2.symm
  rw [hu] at hu2
  obtain rfl : u2 = u := (Option.some.injEq _ _).mp hu2.symm
  subst hview
  constructor
  · intro evs hev hsome
    simp [hev, hsome]
  · intro hev
    simp [hev]

/-- Witness for C7: tok1 grants `canViewEvents`, so the projection at time 2
lists the three events of alice exactly. -/
theorem getSharedScheduleData_events_witness :
    demoToken.permissions.canViewEvents = true ∧
    demoUser.events = some ["e1", "e2", "e3"] ∧
    demoView.events = ["e1", "e2", "e3"] := by
  have h := getSharedScheduleData_events_all_or_nothing demoRegistry demoUsers
    "tok1" 2 demoToken demoUser demoView
    (setLink demoRegistry "tok1"
      { demoToken with accessCount := 1, lastAccessed := some 2 })
    (by decide) (by decide) (by decide)
  exact ⟨by decide, by decide, h.1 ["e1", "e2", "e3"] (by decide) (by decide)⟩

/-- The registry effect of `getSharedScheduleData` is exactly that of the
`accessSharedSchedule` call it begins with: the later expiry and owner-data
checks do not undo the counter bump. -/
theorem getSharedScheduleData_snd (r : Registry) (users : UserDirectory)
    (shareId : String) (now : Nat) :
    (getSharedScheduleData r users shareId now).2 =
      (accessSharedSchedule r shareId now).2 := by
  unfold getSharedScheduleData
  cases hacc : accessSharedSchedule r shareId now with
  | mk o r1 =>
      cases o with
      | none => rfl
      | some upd =>
          simp only []
          split
          · rfl
          · split <;> rfl

/-- Accessing a token that is present but inactive fails and leaves the
registry untouched. -/
theorem accessSharedSchedule_inactive (r : Registry) (shareId : String)
    (now : Nat) (tok : ShareToken) (hl : lookupLink r shareId = some tok)
    (h : tok.isActive = false) :
    accessSharedSchedule r shareId now = (none, r) := by
  simp [accessSharedSchedule, hl, h]

/-- An access (on any id) never changes an inactive entry: the inactive token
is still stored unchanged afterwards. -/
theorem access_snd_preserves_inactive (r : Registry) (sid : String)
    (now : Nat) (shareId : String) (tok : ShareToken)
    (hl : lookupLink r shareId = some tok) (hrev : tok.isActive = false) :
    lookupLink (accessSharedSchedule r sid now).2 shareId = some tok := by
  by_cases hs : sid = shareId
  · subst hs
    rw [accessSharedSchedule_inactive r sid now tok hl hrev]
    exact hl
  · unfold accessSharedSchedule
    cases h2 : lookupLink r sid with
    | none => exact hl
    | some t =>
        simp only []
        by_cases ha : t.isActive
        · rw [if_pos ha]
          simp only []
          rw [lookupLink_setLink_ne r sid _ shareId (Ne.symm hs)]
          exact hl
        · rw [if_neg ha]
          exact hl

/-- One service call keeps a revoked entry revoked, with its access count
intact, provided an `issue` call does not reuse its id. -/
theorem step_preserves_revoked (r : Registry) (op : Op) (shareId : String)
    (tok : ShareToken) (hl : lookupLink r shareId = some tok)
    (hrev : tok.isActive = false)
    (hfresh : (match op with
               | Op.issue freshId _ _ _ _ => (lookupLink r freshId).isNone
               | _ => true) = true) :
    ∃ tok2, lookupLink (step r op) shareId = some tok2 ∧
      tok2.isActive = false ∧ tok2.accessCount = tok.accessCount := by
  cases op with
  | issue freshId origin userId req now =>
      simp only [] at hfresh
      have hfid : freshId ≠ shareId := by
        intro hc
        subst hc
        rw [hl] at hfresh
        simp [Option.isNone] at hfresh
      refine ⟨tok, ?_, hrev, rfl⟩
      show lookupLink (setLink r freshId _) shareId = some tok
      rw [lookupLink_setLink_ne r freshId _ shareId (Ne.symm hfid)]
      exact hl
  | getLink sid => exact ⟨tok, hl, hrev, rfl⟩
  | listByOwner uid => exact ⟨tok, hl, hrev, rfl⟩
  | revoke sid =>
      show ∃ tok2, lookupLink (revokeShareLink r sid).2 shareId = some tok2 ∧ _
      by_cases hs : sid = shareId
      · subst hs
        refine ⟨{ tok with isActive := false }, ?_, rfl, rfl⟩
        unfold revokeShareLink
        rw [hl]
        simp only []
        exact lookupLink_setLink_self r sid _
      · unfold revokeShareLink
        cases h2 : lookupLink r sid with
        | none => exact ⟨tok, hl, hrev, rfl⟩
        | some t =>
            refine ⟨tok, ?_, hrev, rfl⟩
            simp only []
            rw [lookupLink_setLink_ne r sid _ shareId (Ne.symm hs)]
            exact hl
  | updatePerms sid patch =>
      show ∃ tok2,
        lookupLink (updateShareLinkPermissions r sid patch).2 shareId = some tok2 ∧ _
      by_cases hs : sid = shareId
      · subst hs
        refine ⟨{ tok with permissions := mergePermissions tok.permissions patch },
          ?_, hrev, rfl⟩
        unfold updateShareLinkPermissions
        rw [hl]
        simp only []
        exact lookupLink_setLink_self r sid _
      · unfold updateShareLinkPermissions
        cases h2 : lookupLink r sid with
        | none => exact ⟨tok, hl, hrev, rfl⟩
        | some t =>
            refine ⟨tok, ?_, hrev, rfl⟩
            simp only []
            rw [lookupLink_setLink_ne r sid _ shareId (Ne.symm hs)]
            exact hl
  | access sid now =>
      exact ⟨tok, access_snd_preserves_inactive r sid now shareId tok hl hrev,
        hrev, rfl⟩
  | getData users sid now =>
      refine ⟨tok, ?_, hrev, rfl⟩
      show lookupLink (getSharedScheduleData r users sid now).2 shareId = some tok
      rw [getSharedScheduleData_snd]
      exact access_snd_preserves_inactive r sid now shareId tok hl hrev

/-- One service call keeps the key list of the registry duplicate-free, `access`
variant. -/
theorem nodup_keys_access_snd (r : Registry) (sid : String) (now : Nat)
    (h : (r.map Prod.fst).Nodup) :
    (((accessSharedSchedule r sid now).2).map Prod.fst).Nodup := by
  unfold accessSharedSchedule
  cases h2 : lookupLink r sid with
  | none => exact h
  | some t =>
      simp only []
      split
      · exact nodup_keys_setLink r sid _ h
      · exact h

/-- One service call keeps the key list of the registry duplicate-free. -/
theorem nodup_keys_step (r : Registry) (op : Op)
    (h : (r.map Prod.fst).Nodup) : ((step r op).map Prod.fst).Nodup := by
  cases op with
  | issue freshId origin userId req now => exact nodup_keys_setLink r freshId _ h
  | getLink sid => exact h
  | listByOwner uid => exact h
  | revoke sid =>
      show (((revokeShareLink r sid).2).map Prod.fst).Nodup
      unfold revokeShareLink
      cases h2 : lookupLink r sid with
      | none => exact h
      | some t => exact nodup_keys_setLink r sid _ h
  | updatePerms sid patch =>
      show (((updateShareLinkPermissions r sid patch).2).map Prod.fst).Nodup
      unfold updateShareLinkPermissions
      cases h2 : lookupLink r sid with
      | none => exact h
      | some t => exact nodup_keys_setLink r sid _ h
  | access sid now => exact nodup_keys_access_snd r sid now h
  | getData users sid now =>
      show (((getSharedScheduleData r users sid now).2).map Prod.fst).Nodup
      rw [getSharedScheduleData_snd]
      exact nodup_keys_access_snd r sid now h

/-- C1: evaluation at the failing input: exp1 is still active but its expiry
timestamp 5 lies before the current time 10, yet `accessSharedSchedule`
returns the (counter-bumped) token instead of the failure signal — the
function checks only existence and `isActive`, never `expiresAt`. -/
theorem accessSharedSchedule_returns_expired_token :
    demoExpired.isActive = true ∧ demoExpired.expiresAt = some 5 ∧ 10 > 5 ∧
    (accessSharedSchedule demoRegistry "exp1" 10).1 =
      some { demoExpired with accessCount := 1, lastAccessed := some 10 } := by
  decide

/-- C2: evaluation at the failing input: projecting the active-but-expired
token exp1 at time 10 returns no data, yet its `accessCount` is incremented
from 0 to 1 and `lastAccessed` is stamped, because `getSharedScheduleData`
runs `accessSharedSchedule` before the expiry check. -/
theorem getSharedScheduleData_counts_failed_lookup :
    demoExpired.accessCount = 0 ∧
    (getSharedScheduleData demoRegistry demoUsers "exp1" 10).1 = none ∧
    lookupLink (getSharedScheduleData demoRegistry demoUsers "exp1" 10).2
        "exp1" =
      some { demoExpired with accessCount := 1, lastAccessed := some 10 } := by
  decide

/-- C8 counterexample: issuing with a generated id equal to an existing key
("tok1", owned by alice) does not retry — the stored token is replaced by
a new token for bob, so an existing token is overwritten. -/
theorem generateShareLink_collision_overwrites :
    lookupLink demoRegistry "tok1" = some demoToken ∧
    demoToken.userId = "alice" ∧
    (generateShareLink demoRegistry "tok1" "o" "bob" {} 20).1.userId = "bob" ∧
    lookupLink (generateShareLink demoRegistry "tok1" "o" "bob" {} 20).2
        "tok1" =
      some (generateShareLink demoRegistry "tok1" "o" "bob" {} 20).1 ∧
    lookupLink (generateShareLink demoRegistry "tok1" "o" "bob" {} 20).2
        "tok1" ≠ some demoToken := by
  decide

/-- C8 amended: the registry is a map keyed by token id, so after any
sequence of service calls no two entries share an id (the key list stays
duplicate-free), even though a colliding issue overwrites rather than
retries. -/
theorem run_preserves_unique_ids (r : Registry) (ops : List Op)
    (h : (r.map Prod.fst).Nodup) : ((run r ops).map Prod.fst).Nodup := by
  induction ops generalizing r with
  | nil => exact h
  | cons op rest ih => exact ih (step r op) (nodup_keys_step r op h)

/-- Witness for the amended C8: the demo registry has distinct keys and keeps
them distinct across a trace exercising every mutating operation. -/
theorem run_preserves_unique_ids_witness :
    ((demoRegistry.map Prod.fst).Nodup) ∧
    (((run demoRegistry demoOps).map Prod.fst).Nodup) :=
  ⟨by decide, run_preserves_unique_ids demoRegistry demoOps (by decide)⟩

/-- C9 counterexample: rev1 is revoked, but a subsequent issue whose
generated id collides with "rev1" stores a fresh active token under that id,
so the registry entry for the id goes back to `isActive = true`. -/
theorem issue_collision_reactivates_revoked_token :
    lookupLink demoRegistry "rev1" = some demoRevoked ∧
    demoRevoked.isActive = false ∧
    Option.map ShareToken.isActive
        (lookupLink (run demoRegistry [Op.issue "rev1" "o" "bob" {} 30])
          "rev1") =
      some true := by
  decide

/-- C9 amended: across any trace of service calls in which issued ids are
fresh (the generator never collides), a revoked token stays present, stays
inactive, keeps its access count, and accessing it keeps failing without
touching the registry. -/
theorem revocation_terminal_under_fresh_ids (r : Registry) (ops : List Op)
    (shareId : String) (tok : ShareToken)
    (hl : lookupLink r shareId = some tok) (hrev : tok.isActive = false)
    (hf : freshTrace r ops = true) :
    ∃ tok2, lookupLink (run r ops) shareId = some tok2 ∧
      tok2.isActive = false ∧ tok2.accessCount = tok.accessCount ∧
      ∀ now, accessSharedSchedule (run r ops) shareId now =
        (none, run r ops) := by
  induction ops generalizing r tok with
  | nil =>
      exact ⟨tok, hl, hrev, rfl,
        fun now => accessSharedSchedule_inactive _ _ now tok hl hrev⟩
  | cons op rest ih =>
      unfold freshTrace at hf
      rw [Bool.and_eq_true] at hf
      obtain ⟨hf1, hf2⟩ := hf
      obtain ⟨tok2, hl2, hrev2, hcnt⟩ :=
        step_preserves_revoked r op shareId tok hl hrev hf1
      obtain ⟨tok3, hl3, hrev3, hcnt3, hacc⟩ :=
        ih (step r op) tok2 hl2 hrev2 hf2
      exact ⟨tok3, hl3, hrev3, hcnt3.trans hcnt, hacc⟩

/-- Witness for the amended C9: along the collision-free demo trace, rev1
stays revoked with access count 0 and remains inaccessible. -/
theorem revocation_terminal_witness :
    lookupLink demoRegistry "rev1" = some demoRevoked ∧
    demoRevoked.isActive = false ∧
    freshTrace demoRegistry demoOps = true ∧
    (∃ tok2, lookupLink (run demoRegistry demoOps) "rev1" = some tok2 ∧
      tok2.isActive = false ∧ tok2.accessCount = demoRevoked.accessCount ∧
      ∀ now, accessSharedSchedule (run demoRegistry demoOps) "rev1" now =
        (none, run demoRegistry demoOps)) :=
  ⟨by decide, by decide, by decide,
   revocation_terminal_under_fresh_ids demoRegistry demoOps "rev1" demoRevoked
     (by decide) (by decide) (by decide)⟩

end Checkmate
